import Mathlib

/-!
Verification of the BizZen appointment-booking core: the GORM model layer
(`User`, `Invoice`, and the spec-modelled `Appointment`), the credential
verifier pair (`HashPassword` / `CheckPassword`), and the HTTP handlers
(`CreateUser`, `Authenticate`, `GetUser`, `UpdateUser`).

Records live in a relational store; we embed the store of each entity as a
list of records.  GORM's default query scope hides soft-deleted rows
(`deleted_at IS NOT NULL`), `db.Delete` on a model embedding `gorm.Model`
soft-deletes (it sets `deleted_at`), and `db.Model(..).Updates(map)` applies
exactly the columns named by the map's keys (PATCH, not PUT), skipping the
statement entirely when the map is empty.  Partial-update maps
(`map[string]interface{}` decoded from JSON) are embedded as association
lists of column name to JSON value.
-/

namespace BizZen

/-- JSON value as decoded into `map[string]interface{}` by `encoding/json`. -/
inductive JVal where
  | jstr (s : String)
  | jnum (n : Int)
  | jbool (b : Bool)
  | jnull
deriving DecidableEq, Repr

/-- A decoded JSON object used as a partial-update map (`map[string]interface{}`). -/
abbrev UpdateMap := List (String × JVal)

/-- Database-level errors surfaced by the store (GORM). -/
inductive DBError where
  | recordNotFound
  | uniqueViolation
deriving DecidableEq, Repr

/-- User record (GORM model `User`): gorm.Model fields `ID`/`DeletedAt` plus the
columns `email`, `password`, `account_type`, `first_name`, `last_name`,
`business_id`.  `CreatedAt`/`UpdatedAt` bookkeeping timestamps are not part of
the data model and are omitted. -/
structure User where
  id : Nat
  deletedAt : Option Nat
  email : String
  password : String
  accountType : String
  firstName : String
  lastName : String
  businessID : Option Nat
deriving DecidableEq, Repr

/-- The user store: the `users` table. -/
abbrev UserDB := List User

/-- Applies one key/value pair of a partial-update map to a `User`, following the
GORM column tags of the `User` model.  A key that does not name a `User` column,
or carries a value of the wrong type, assigns nothing. -/
def User.applyField (u : User) (kv : String × JVal) : User :=
  if kv.1 = "email" then
    match kv.2 with
    | JVal.jstr s => { u with email := s }
    | _ => u
  else if kv.1 = "password" then
    match kv.2 with
    | JVal.jstr s => { u with password := s }
    | _ => u
  else if kv.1 = "account_type" then
    match kv.2 with
    | JVal.jstr s => { u with accountType := s }
    | _ => u
  else if kv.1 = "first_name" then
    match kv.2 with
    | JVal.jstr s => { u with firstName := s }
    | _ => u
  else if kv.1 = "last_name" then
    match kv.2 with
    | JVal.jstr s => { u with lastName := s }
    | _ => u
  else if kv.1 = "business_id" then
    match kv.2 with
    | JVal.jnum n => { u with businessID := some n.toNat }
    | JVal.jnull => { u with businessID := none }
    | _ => u
  else u

/-- `db.Model(&user).Updates(updates)` column assignment: every key present in
the map overwrites its column, keys absent leave the column untouched. -/
def User.applyUpdates (u : User) (m : UpdateMap) : User :=
  m.foldl User.applyField u

/-- Checks that one entry of a partial-update map names a `User` column and
carries a value of that column's type. -/
def userKeyOK (kv : String × JVal) : Bool :=
  if kv.1 = "email" ∨ kv.1 = "password" ∨ kv.1 = "account_type"
      ∨ kv.1 = "first_name" ∨ kv.1 = "last_name" then
    match kv.2 with
    | JVal.jstr _ => true
    | _ => false
  else if kv.1 = "business_id" then
    match kv.2 with
    | JVal.jnum n => decide (0 ≤ n)
    | JVal.jnull => true
    | _ => false
  else false

/-- `db.First(&user, userID)`: first row matching the primary key under GORM's
default scope, which excludes soft-deleted rows. -/
def dbFirstUser (db : UserDB) (userID : Nat) : Option User :=
  db.find? (fun u => u.id == userID && u.deletedAt == none)

/-- `db.First` with `Unscoped`: primary-key lookup that also sees soft-deleted
rows (not used by any handler; stated for reference about what soft deletion
retains). -/
def dbUnscopedFirstUser (db : UserDB) (userID : Nat) : Option User :=
  db.find? (fun u => u.id == userID)

/-- `func (user *User) Get(db, userID)`: retrieve by ID, propagating GORM's
record-not-found error. -/
def User.Get (db : UserDB) (userID : Nat) : Except DBError User :=
  match dbFirstUser db userID with
  | some u => Except.ok u
  | none => Except.error DBError.recordNotFound

/-- The store after `db.Model(&updateUser).Where("id = ?", userID).Updates(updates)`:
the live row with the given primary key gets exactly the mapped columns
overwritten. -/
def dbUpdatesUser (db : UserDB) (userID : Nat) (m : UpdateMap) : UserDB :=
  db.map (fun u => if u.id == userID && u.deletedAt == none then u.applyUpdates m else u)

/-- `func (user *User) Update(db, userID, updates)`: confirm the ID exists via
`Get` (returning the error unchanged if it does not), then apply the
partial-update map to the stored row and return the merged record. -/
def User.Update (db : UserDB) (userID : Nat) (updates : UpdateMap) :
    UserDB × Except DBError User :=
  match User.Get db userID with
  | Except.error e => (db, Except.error e)
  | Except.ok u => (dbUpdatesUser db userID updates, Except.ok (u.applyUpdates updates))

/-- `func (user *User) Delete(db, userID)`: confirm the ID exists via `Get`
(returning the error unchanged if it does not), then `db.Delete`, which for a
model embedding `gorm.Model` soft-deletes: it stamps `deleted_at` (modelled by
the clock argument `now`) instead of erasing the row. -/
def User.Delete (db : UserDB) (now : Nat) (userID : Nat) :
    UserDB × Except DBError User :=
  match User.Get db userID with
  | Except.error e => (db, Except.error e)
  | Except.ok u =>
      (db.map (fun x => if x.id == userID && x.deletedAt == none
                        then { x with deletedAt := some now } else x),
       Except.ok u)

/-- `func (user *User) GetAll(db)`: `db.Find(&users)` under GORM's default
scope, which excludes soft-deleted rows — the default listing. -/
def User.GetAll (db : UserDB) : List User :=
  db.filter (fun u => u.deletedAt == none)

/-- `func (user *User) GetUserByEmail(db, userEmail)`: look the user up by
email, propagating the lookup error if the email matches no stored user. -/
def User.GetUserByEmail (db : UserDB) (userEmail : String) : Except DBError User :=
  match db.find? (fun u => u.email == userEmail && u.deletedAt == none) with
  | some u => Except.ok u
  | none => Except.error DBError.recordNotFound

/-- Invoice record (GORM model `Invoice`): gorm.Model fields `ID`/`DeletedAt`
plus the columns `user_id` (the column the `AppointmentID` field is tagged
with), `original_balance`, `remaining_balance`, `status`. -/
structure Invoice where
  id : Nat
  deletedAt : Option Nat
  appointmentID : Nat
  originalBalance : Int
  remainingBalance : Int
  status : String
deriving DecidableEq, Repr

/-- The invoice store: the `invoices` table. -/
abbrev InvoiceDB := List Invoice

/-- Applies one key/value pair of a partial-update map to an `Invoice`,
following the GORM column tags of the `Invoice` model. -/
def Invoice.applyField (v : Invoice) (kv : String × JVal) : Invoice :=
  if kv.1 = "user_id" then
    match kv.2 with
    | JVal.jnum n => { v with appointmentID := n.toNat }
    | _ => v
  else if kv.1 = "original_balance" then
    match kv.2 with
    | JVal.jnum n => { v with originalBalance := n }
    | _ => v
  else if kv.1 = "remaining_balance" then
    match kv.2 with
    | JVal.jnum n => { v with remainingBalance := n }
    | _ => v
  else if kv.1 = "status" then
    match kv.2 with
    | JVal.jstr s => { v with status := s }
    | _ => v
  else v

/-- `db.Model(&updateInvoice).Updates(updates)` column assignment for invoices. -/
def Invoice.applyUpdates (v : Invoice) (m : UpdateMap) : Invoice :=
  m.foldl Invoice.applyField v

/-- Checks that one entry of a partial-update map names an `Invoice` column and
carries a value of that column's type. -/
def invoiceKeyOK (kv : String × JVal) : Bool :=
  if kv.1 = "user_id" then
    match kv.2 with
    | JVal.jnum n => decide (0 ≤ n)
    | _ => false
  else if kv.1 = "original_balance" ∨ kv.1 = "remaining_balance" then
    match kv.2 with
    | JVal.jnum _ => true
    | _ => false
  else if kv.1 = "status" then
    match kv.2 with
    | JVal.jstr _ => true
    | _ => false
  else false

/-- `db.First(&invoice, invoiceID)` under GORM's default scope. -/
def dbFirstInvoice (db : InvoiceDB) (invoiceID : Nat) : Option Invoice :=
  db.find? (fun v => v.id == invoiceID && v.deletedAt == none)

/-- `func (invoice *Invoice) Get(db, invoiceID)`. -/
def Invoice.Get (db : InvoiceDB) (invoiceID : Nat) : Except DBError Invoice :=
  match dbFirstInvoice db invoiceID with
  | some v => Except.ok v
  | none => Except.error DBError.recordNotFound

/-- The invoice store after `db.Model(..).Where("id = ?", invoiceID).Updates(updates)`. -/
def dbUpdatesInvoice (db : InvoiceDB) (invoiceID : Nat) (m : UpdateMap) : InvoiceDB :=
  db.map (fun v => if v.id == invoiceID && v.deletedAt == none then v.applyUpdates m else v)

/-- `func (invoice *Invoice) Update(db, invoiceID, updates)`: confirm the ID
exists via `Get`, then apply the partial-update map to the stored row and
return the merged record.  No status recomputation happens anywhere in this
path (the model file only notes validation hooks as TODO). -/
def Invoice.Update (db : InvoiceDB) (invoiceID : Nat) (updates : UpdateMap) :
    InvoiceDB × Except DBError Invoice :=
  match Invoice.Get db invoiceID with
  | Except.error e => (db, Except.error e)
  | Except.ok v => (dbUpdatesInvoice db invoiceID updates, Except.ok (v.applyUpdates updates))

/-- `func (invoice *Invoice) Delete(db, invoiceID)`: existence check then
soft delete, exactly as for `User`. -/
def Invoice.Delete (db : InvoiceDB) (now : Nat) (invoiceID : Nat) :
    InvoiceDB × Except DBError Invoice :=
  match Invoice.Get db invoiceID with
  | Except.error e => (db, Except.error e)
  | Except.ok v =>
      (db.map (fun x => if x.id == invoiceID && x.deletedAt == none
                        then { x with deletedAt := some now } else x),
       Except.ok v)

/-- Appointment record: gorm.Model fields `ID`/`DeletedAt` plus the columns
`service_id`, `user_id`, `cancel_date_time`, `active`, as documented by the
appointment handlers. -/
structure Appointment where
  id : Nat
  deletedAt : Option Nat
  serviceID : Nat
  userID : Nat
  cancelDateTime : Option Nat
  active : Bool
deriving DecidableEq, Repr

/-- The appointment store: the `appointments` table. -/
abbrev AppointmentDB := List Appointment

/-- Applies one key/value pair of a partial-update map to an `Appointment`,
following the columns documented by the appointment handlers. -/
def Appointment.applyField (a : Appointment) (kv : String × JVal) : Appointment :=
  if kv.1 = "service_id" then
    match kv.2 with
    | JVal.jnum n => { a with serviceID := n.toNat }
    | _ => a
  else if kv.1 = "user_id" then
    match kv.2 with
    | JVal.jnum n => { a with userID := n.toNat }
    | _ => a
  else if kv.1 = "cancel_date_time" then
    match kv.2 with
    | JVal.jnum n => { a with cancelDateTime := some n.toNat }
    | JVal.jnull => { a with cancelDateTime := none }
    | _ => a
  else if kv.1 = "active" then
    match kv.2 with
    | JVal.jbool b => { a with active := b }
    | _ => a
  else a

/-- Column assignment of a partial-update map for appointments. -/
def Appointment.applyUpdates (a : Appointment) (m : UpdateMap) : Appointment :=
  m.foldl Appointment.applyField a

/-- `db.First(&appt, apptID)` under GORM's default scope. -/
def dbFirstAppointment (db : AppointmentDB) (apptID : Nat) : Option Appointment :=
  db.find? (fun a => a.id == apptID && a.deletedAt == none)

/-- Modelled from the spec: `Appointment.Get`.  The Appointment model file is
absent from the sources (only its handlers are present); the spec's Record
Store Adapter gives every entity the same `get(id) -> Entity|NotFound`
lookup, implemented identically by the present `User.Get`, `Service.Get` and
`Invoice.Get`. -/
def Appointment.Get (db : AppointmentDB) (apptID : Nat) : Except DBError Appointment :=
  match dbFirstAppointment db apptID with
  | some a => Except.ok a
  | none => Except.error DBError.recordNotFound

/-- The appointment store after `db.Model(..).Updates(updates)`. -/
def dbUpdatesAppointment (db : AppointmentDB) (apptID : Nat) (m : UpdateMap) : AppointmentDB :=
  db.map (fun a => if a.id == apptID && a.deletedAt == none then a.applyUpdates m else a)

/-- Modelled from the spec: `Appointment.Update`.  The Appointment model file
is absent from the sources; the spec's Entity Lifecycle Manager (§4.3) applies
the same generic patch-update workflow "uniformly to User, Service,
Appointment, Invoice" — get, fail `NotFound` if absent, merge only the keys
present in the map, persist, return the merged entity — and the handler
`UpdateAppointment` passes the decoded map straight to this method. -/
def Appointment.Update (db : AppointmentDB) (apptID : Nat) (updates : UpdateMap) :
    AppointmentDB × Except DBError Appointment :=
  match Appointment.Get db apptID with
  | Except.error e => (db, Except.error e)
  | Except.ok a => (dbUpdatesAppointment db apptID updates, Except.ok (a.applyUpdates updates))

/-! ### Credential verifier (bcrypt) -/

/-- Password-comparison errors raised by the bcrypt library. -/
inductive PasswordError where
  | mismatchedHashAndPassword
deriving DecidableEq, Repr

/-- The digest part of a bcrypt hash, embedded as a concrete injective
transform of the password (the salted Blowfish key schedule is idealised as
collision-free, which is exactly the property the verifier relies on). -/
def bcryptDigest (password : String) : String :=
  String.mk password.data.reverse

/-- `bcrypt.GenerateFromPassword(password, 14)` as called by `HashPassword`:
a formatted hash string carrying the algorithm/cost prefix and the digest.
The random salt is omitted from the model: the verified properties are
salt-independent, and on valid input generation never fails. -/
def bcryptGenerateFromPassword (password : String) : String :=
  "$2a$14$" ++ bcryptDigest password

/-- `bcrypt.CompareHashAndPassword(hashed, provided)`: recompute the hash of
the provided password with the parameters carried by the stored hash and
compare, failing with a mismatch error when they differ. -/
def bcryptCompareHashAndPassword (hashedPassword providedPassword : String) :
    Except PasswordError Unit :=
  if hashedPassword = bcryptGenerateFromPassword providedPassword
  then Except.ok ()
  else Except.error PasswordError.mismatchedHashAndPassword

/-- `func (user *User) HashPassword(password)`: hash the plaintext and store
the hash in the calling record's `Password` attribute. -/
def User.HashPassword (u : User) (password : String) : User :=
  { u with password := bcryptGenerateFromPassword password }

/-- `func (user *User) CheckPassword(providedPassword)`: compare the provided
plaintext against the calling record's stored hash. -/
def User.CheckPassword (u : User) (providedPassword : String) : Except PasswordError Unit :=
  bcryptCompareHashAndPassword u.password providedPassword

/-! ### HTTP handlers -/

/-- Login credentials: email and plaintext password (transient, never
persisted). -/
structure Credentials where
  email : String
  password : String
deriving DecidableEq, Repr

/-- Autoincrement primary key assigned by `db.Create`. -/
def freshUserID (db : UserDB) : Nat :=
  db.foldl (fun m u => max m u.id) 0 + 1

/-- `db.Create(&user)`: insert with a fresh primary key and a zero
`DeletedAt`; the `unique` constraint on the `email` column rejects a
duplicate email without inserting. -/
def User.Create (db : UserDB) (u : User) : UserDB × Except DBError User :=
  if db.any (fun x => x.email == u.email)
  then (db, Except.error DBError.uniqueViolation)
  else
    let created := { u with id := freshUserID db, deletedAt := none }
    (db ++ [created], Except.ok created)

/-- The JSON object `utils.RespondWithJSON` encodes for a `User` record: the
gorm.Model fields together with every tagged column — `email`, `password`,
`account_type`, `first_name`, `last_name`, `business_id`.  No field is
omitted from serialization. -/
def userToJson (u : User) : List (String × JVal) :=
  [("ID", JVal.jnum (u.id : Int)),
   ("DeletedAt", match u.deletedAt with | some t => JVal.jnum (t : Int) | none => JVal.jnull),
   ("email", JVal.jstr u.email),
   ("password", JVal.jstr u.password),
   ("account_type", JVal.jstr u.accountType),
   ("first_name", JVal.jstr u.firstName),
   ("last_name", JVal.jstr u.lastName),
   ("business_id", match u.businessID with | some b => JVal.jnum (b : Int) | none => JVal.jnull)]

/-- An HTTP response carrying an optional `User` record as its JSON body. -/
structure UserResponse where
  status : Nat
  body : Option User
deriving DecidableEq, Repr

/-- `func (app *Application) CreateUser(writer, request)` after decoding: hash
the decoded plaintext password into the record (`user.HashPassword(user.Password)`),
insert it, and on success respond 201 with the full created record; on a
store failure respond 500 with no record. -/
def Application.CreateUser (db : UserDB) (payload : User) : UserDB × UserResponse :=
  let hashed := payload.HashPassword payload.password
  match User.Create db hashed with
  | (dbNew, Except.ok created) => (dbNew, ⟨201, some created⟩)
  | (dbOld, Except.error _) => (dbOld, ⟨500, none⟩)

/-- What the `Authenticate` handler writes to the response. -/
inductive AuthResponse where
  | noResponse
  | err (status : Nat) (message : String)
  | ok (message : String)
deriving DecidableEq, Repr

/-- `func (app *Application) Authenticate(writer, request)` after decoding:
look the user up by email — but when that lookup fails the handler executes a
bare `return` without writing anything to the response; then check the
password, responding 400 "Incorrect password." on mismatch and 200
"User logged in." on success (session/token issuance is commented out). -/
def Application.Authenticate (db : UserDB) (credentials : Credentials) : AuthResponse :=
  match User.GetUserByEmail db credentials.email with
  | Except.error _ => AuthResponse.noResponse
  | Except.ok returnedUser =>
      match returnedUser.CheckPassword credentials.password with
      | Except.error _ => AuthResponse.err 400 "Incorrect password."
      | Except.ok _ => AuthResponse.ok "User logged in."

/-- What the `GetUser` handler does with the request: either a 200 response
with the record, or — on a failed lookup — a 404 error response followed by
`log.Panicf` with the same message, which panics in the request's goroutine
before the handler reaches its `return`. -/
inductive GetUserOutcome where
  | ok (status : Nat) (body : User)
  | panicked (status : Nat) (message : String)
deriving DecidableEq, Repr

/-- Whether the handler invocation ended in a panic. -/
def GetUserOutcome.isPanic : GetUserOutcome → Bool
  | GetUserOutcome.ok _ _ => false
  | GetUserOutcome.panicked _ _ => true

/-- `func (app *Application) GetUser(writer, request)`: retrieve the record by
the request's identifier; on a failed lookup, write the 404 error response and
then call `log.Panicf(errorMessage)`. -/
def Application.GetUser (db : UserDB) (userID : Nat) : GetUserOutcome :=
  match User.Get db userID with
  | Except.ok u => GetUserOutcome.ok 200 u
  | Except.error _ =>
      GetUserOutcome.panicked 404
        ("User ID (" ++ toString userID ++ ") does not exist in the database.")

/-- `func (app *Application) UpdateUser(writer, request)` after decoding the
partial-update map: pass the map straight to the model's update — no entry of
the map, the `password` key included, is hashed or otherwise transformed —
and respond 200 with the merged record, or 500 on any error. -/
def Application.UpdateUser (db : UserDB) (userID : Nat) (updates : UpdateMap) :
    UserDB × UserResponse :=
  match User.Update db userID updates with
  | (dbNew, Except.ok u) => (dbNew, ⟨200, some u⟩)
  | (dbOld, Except.error _) => (dbOld, ⟨500, none⟩)

/-! ### Patch-map lookup helpers

These express the spec's reading of a partial-update map — "only keys present
in the mapping overwrite fields; keys absent are left untouched" — as a
per-field lookup, to be related to the store-side column assignment
`applyUpdates`. -/

/-- Value a partial-update map assigns to a string column: the mapped value
when the key is present, the old value when absent. -/
def patchStr (m : UpdateMap) (k : String) (old : String) : String :=
  match m.lookup k with
  | some (JVal.jstr s) => s
  | _ => old

/-- Value a partial-update map assigns to an integer column. -/
def patchInt (m : UpdateMap) (k : String) (old : Int) : Int :=
  match m.lookup k with
  | some (JVal.jnum n) => n
  | _ => old

/-- Value a partial-update map assigns to an unsigned column. -/
def patchNat (m : UpdateMap) (k : String) (old : Nat) : Nat :=
  match m.lookup k with
  | some (JVal.jnum n) => n.toNat
  | _ => old

/-- Value a partial-update map assigns to a nullable unsigned column: an
explicit null clears the column, distinct from an absent key. -/
def patchOptNat (m : UpdateMap) (k : String) (old : Option Nat) : Option Nat :=
  match m.lookup k with
  | some (JVal.jnum n) => some n.toNat
  | some JVal.jnull => none
  | _ => old

/-! ### Concrete records used to evaluate the claims -/

/-- A stored user whose password field holds a proper hash. -/
def sampleUser : User :=
  ⟨1, none, "a@b.com", bcryptGenerateFromPassword "secret", "Individual", "Ada", "Lovelace", none⟩

/-- The invoice of the spec's scenario: original and remaining balance 1000,
status consistent with an unpaid balance. -/
def sampleInvoice : Invoice := ⟨1, none, 1, 1000, 1000, "Unpaid"⟩

/-- The appointment of the spec's scenario: service 1, user 2, active, not
cancelled. -/
def sampleAppointment : Appointment := ⟨1, none, 1, 2, none, true⟩

/-- A registration payload as decoded by `CreateUser`: plaintext password,
zero id. -/
def samplePayload : User :=
  ⟨0, none, "new@b.com", "secret", "Individual", "Grace", "Hopper", none⟩

/-! ### Helper lemmas -/

/-- Looking a key up in an association list without that key yields nothing. -/
theorem lookup_eq_none_of_not_mem {β : Type} (l : List (String × β)) (k : String)
    (h : k ∉ l.map Prod.fst) : l.lookup k = none := by
  induction l with
  | nil => rfl
  | cons p t ih =>
      obtain ⟨k', b⟩ := p
      simp only [List.map_cons, List.mem_cons, not_or] at h
      have hb : (k == k') = false := beq_eq_false_iff_ne.mpr h.1
      simp [List.lookup, hb, ih h.2]

/-- Column assignment of a well-formed, duplicate-free partial-update map on a
`User` record, characterised field by field: every mapped key overwrites its
column, every absent key leaves its column untouched, and the primary key and
deletion marker are never touched. -/
theorem userApplyUpdates_fieldwise (M : UpdateMap) (u : User)
    (hwf : ∀ kv ∈ M, userKeyOK kv = true)
    (hnd : (M.map Prod.fst).Nodup) :
    u.applyUpdates M =
      { u with
        email := patchStr M "email" u.email,
        password := patchStr M "password" u.password,
        accountType := patchStr M "account_type" u.accountType,
        firstName := patchStr M "first_name" u.firstName,
        lastName := patchStr M "last_name" u.lastName,
        businessID := patchOptNat M "business_id" u.businessID } := by
  induction M generalizing u with
  | nil => rfl
  | cons kv M' ih =>
      obtain ⟨k, v⟩ := kv
      have hOK : userKeyOK (k, v) = true := hwf (k, v) (List.mem_cons_self _ _)
      simp only [List.map_cons, List.nodup_cons] at hnd
      have hwf' : ∀ kv ∈ M', userKeyOK kv = true :=
        fun kv h => hwf kv (List.mem_cons_of_mem _ h)
      have hnone : M'.lookup k = none := lookup_eq_none_of_not_mem M' k hnd.1
      have hkey : k = "email" ∨ k = "password" ∨ k = "account_type"
          ∨ k = "first_name" ∨ k = "last_name" ∨ k = "business_id" := by
        by_contra hc
        push_neg at hc
        obtain ⟨h1, h2, h3, h4, h5, h6⟩ := hc
        simp [userKeyOK, h1, h2, h3, h4, h5, h6] at hOK
      show (u.applyField (k, v)).applyUpdates M' = _
      rw [ih _ hwf' hnd.2]
      clear ih hwf hwf' hnd
      rcases hkey with rfl | rfl | rfl | rfl | rfl | rfl <;>
        cases v <;>
        simp [userKeyOK] at hOK <;>
        simp [User.applyField, patchStr, patchOptNat, List.lookup, hnone]

/-- Column assignment of a well-formed, duplicate-free partial-update map on
an `Invoice` record, characterised field by field. -/
theorem invoiceApplyUpdates_fieldwise (N : UpdateMap) (v : Invoice)
    (hwf : ∀ kv ∈ N, invoiceKeyOK kv = true)
    (hnd : (N.map Prod.fst).Nodup) :
    v.applyUpdates N =
      { v with
        appointmentID := patchNat N "user_id" v.appointmentID,
        originalBalance := patchInt N "original_balance" v.originalBalance,
        remainingBalance := patchInt N "remaining_balance" v.remainingBalance,
        status := patchStr N "status" v.status } := by
  induction N generalizing v with
  | nil => rfl
  | cons kv N' ih =>
      obtain ⟨k, w⟩ := kv
      have hOK : invoiceKeyOK (k, w) = true := hwf (k, w) (List.mem_cons_self _ _)
      simp only [List.map_cons, List.nodup_cons] at hnd
      have hwf' : ∀ kv ∈ N', invoiceKeyOK kv = true :=
        fun kv h => hwf kv (List.mem_cons_of_mem _ h)
      have hnone : N'.lookup k = none := lookup_eq_none_of_not_mem N' k hnd.1
      have hkey : k = "user_id" ∨ k = "original_balance"
          ∨ k = "remaining_balance" ∨ k = "status" := by
        by_contra hc
        push_neg at hc
        obtain ⟨h1, h2, h3, h4⟩ := hc
        simp [invoiceKeyOK, h1, h2, h3, h4] at hOK
      show (v.applyField (k, w)).applyUpdates N' = _
      rw [ih _ hwf' hnd.2]
      clear ih hwf hwf' hnd
      rcases hkey with rfl | rfl | rfl | rfl <;>
        cases w <;>
        simp [invoiceKeyOK] at hOK <;>
        simp [Invoice.applyField, patchStr, patchInt, patchNat, List.lookup, hnone]

/-- An empty partial-update map executes no statement and leaves the user
store unchanged. -/
theorem dbUpdatesUser_nil (db : UserDB) (uid : Nat) : dbUpdatesUser db uid [] = db := by
  simp [dbUpdatesUser, User.applyUpdates]

/-- An empty partial-update map executes no statement and leaves the invoice
store unchanged. -/
theorem dbUpdatesInvoice_nil (db : InvoiceDB) (vid : Nat) : dbUpdatesInvoice db vid [] = db := by
  simp [dbUpdatesInvoice, Invoice.applyUpdates]

/-- The modelled bcrypt generation is injective: distinct plaintexts yield
distinct hashes (the idealised collision-freeness of the digest). -/
theorem bcryptGenerateFromPassword_injective :
    Function.Injective bcryptGenerateFromPassword := by
  intro a b hab
  unfold bcryptGenerateFromPassword bcryptDigest at hab
  have hdata := congrArg String.data hab
  simp only [String.data_append] at hdata
  have h2 : a.data.reverse = b.data.reverse := List.append_cancel_left hdata
  have h3 : a.data = b.data := List.reverse_injective h2
  cases a; cases b; exact congrArg String.mk h3

/-! ### Claim theorems -/

/-- Claim C1: for every stored entity E (shown for the `User` and `Invoice`
variants, whose `Update` methods are the cited code) and every well-formed,
duplicate-free partial update map whose keys are a subset of E's fields,
`update(E.id, M)` returns an entity equal to E except at the keys in M —
absent keys leave the corresponding fields untouched — and if M is empty the
call returns E unchanged and leaves the store unchanged. -/
theorem patch_update_semantics
    (udb : UserDB) (uid : Nat) (E : User) (M : UpdateMap)
    (hgetU : User.Get udb uid = Except.ok E)
    (hwfU : ∀ kv ∈ M, userKeyOK kv = true)
    (hndU : (M.map Prod.fst).Nodup)
    (idb : InvoiceDB) (vid : Nat) (F : Invoice) (N : UpdateMap)
    (hgetV : Invoice.Get idb vid = Except.ok F)
    (hwfV : ∀ kv ∈ N, invoiceKeyOK kv = true)
    (hndV : (N.map Prod.fst).Nodup) :
    (User.Update udb uid M).2 = Except.ok
      { E with
        email := patchStr M "email" E.email,
        password := patchStr M "password" E.password,
        accountType := patchStr M "account_type" E.accountType,
        firstName := patchStr M "first_name" E.firstName,
        lastName := patchStr M "last_name" E.lastName,
        businessID := patchOptNat M "business_id" E.businessID }
    ∧ (M = [] → User.Update udb uid M = (udb, Except.ok E))
    ∧ (Invoice.Update idb vid N).2 = Except.ok
      { F with
        appointmentID := patchNat N "user_id" F.appointmentID,
        originalBalance := patchInt N "original_balance" F.originalBalance,
        remainingBalance := patchInt N "remaining_balance" F.remainingBalance,
        status := patchStr N "status" F.status }
    ∧ (N = [] → Invoice.Update idb vid N = (idb, Except.ok F)) := by
  refine ⟨?_, ?_, ?_, ?_⟩
  · simp [User.Update, hgetU, userApplyUpdates_fieldwise M E hwfU hndU]
  · rintro rfl
    simp [User.Update, hgetU, dbUpdatesUser_nil, User.applyUpdates]
  · simp [Invoice.Update, hgetV, invoiceApplyUpdates_fieldwise N F hwfV hndV]
  · rintro rfl
    simp [Invoice.Update, hgetV, dbUpdatesInvoice_nil, Invoice.applyUpdates]

/-- Claim C1 witness: patching one field of a concrete stored user changes
exactly that field. -/
theorem patch_update_semantics_witness :
    (User.Update [sampleUser] 1 [("first_name", JVal.jstr "Grace")]).2
      = Except.ok { sampleUser with firstName := "Grace" } := by
  have h := patch_update_semantics [sampleUser] 1 sampleUser
    [("first_name", JVal.jstr "Grace")] rfl (by decide) (by decide)
    [sampleInvoice] 1 sampleInvoice [("status", JVal.jstr "Paid")] rfl (by decide) (by decide)
  exact h.1

/-- Claim C2: for the `User` and `Invoice` entity variants and every
identifier not present in the store, both `update(id, M)` — for any map M —
and `delete(id)` return NotFound and leave the store completely unchanged. -/
theorem update_delete_nonexistent_notfound
    (udb : UserDB) (idb : InvoiceDB) (rid now : Nat) (M : UpdateMap)
    (hu : ∀ u ∈ udb, u.id ≠ rid)
    (hv : ∀ v ∈ idb, v.id ≠ rid) :
    User.Update udb rid M = (udb, Except.error DBError.recordNotFound)
    ∧ User.Delete udb now rid = (udb, Except.error DBError.recordNotFound)
    ∧ Invoice.Update idb rid M = (idb, Except.error DBError.recordNotFound)
    ∧ Invoice.Delete idb now rid = (idb, Except.error DBError.recordNotFound) := by
  have hgu : User.Get udb rid = Except.error DBError.recordNotFound := by
    have hfu : dbFirstUser udb rid = none := by
      apply List.find?_eq_none.mpr
      intro u hmem
      simp [hu u hmem]
    simp [User.Get, hfu]
  have hgv : Invoice.Get idb rid = Except.error DBError.recordNotFound := by
    have hfv : dbFirstInvoice idb rid = none := by
      apply List.find?_eq_none.mpr
      intro v hmem
      simp [hv v hmem]
    simp [Invoice.Get, hfv]
  refine ⟨?_, ?_, ?_, ?_⟩ <;>
    simp [User.Update, User.Delete, Invoice.Update, Invoice.Delete, hgu, hgv]

/-- Claim C2 witness: updating and deleting the absent id 2 on concrete
stores fails with NotFound and mutates nothing. -/
theorem update_delete_nonexistent_notfound_witness :
    User.Update [sampleUser] 2 [("email", JVal.jstr "z@b.com")]
      = ([sampleUser], Except.error DBError.recordNotFound)
    ∧ User.Delete [sampleUser] 5 2
      = ([sampleUser], Except.error DBError.recordNotFound) := by
  have h := update_delete_nonexistent_notfound [sampleUser] [sampleInvoice] 2 5
    [("email", JVal.jstr "z@b.com")] (by decide) (by decide)
  exact ⟨h.1, h.2.1⟩

/-- Claim C3: for every plaintext password p, `CheckPassword` succeeds on the
hash `HashPassword` stores, and fails with a mismatch error on every other
plaintext p2 ≠ p. -/
theorem verify_hash_roundtrip (u : User) (p p2 : String) (h : p2 ≠ p) :
    (u.HashPassword p).password = bcryptGenerateFromPassword p
    ∧ (u.HashPassword p).CheckPassword p = Except.ok ()
    ∧ (u.HashPassword p).CheckPassword p2
        = Except.error PasswordError.mismatchedHashAndPassword := by
  refine ⟨rfl, ?_, ?_⟩
  · simp [User.HashPassword, User.CheckPassword, bcryptCompareHashAndPassword]
  · have hne : bcryptGenerateFromPassword p ≠ bcryptGenerateFromPassword p2 :=
      fun he => h (bcryptGenerateFromPassword_injective he).symm
    simp [User.HashPassword, User.CheckPassword, bcryptCompareHashAndPassword, hne]

/-- Claim C3 witness: the concrete password "secret" verifies against its own
hash and "wrong" does not. -/
theorem verify_hash_roundtrip_witness :
    ("wrong" : String) ≠ "secret"
    ∧ (sampleUser.HashPassword "secret").CheckPassword "secret" = Except.ok ()
    ∧ (sampleUser.HashPassword "secret").CheckPassword "wrong"
        = Except.error PasswordError.mismatchedHashAndPassword := by
  have h := verify_hash_roundtrip sampleUser "secret" "wrong" (by decide)
  exact ⟨by decide, h.2.1, h.2.2⟩

/-- Claim C4 is violated by the code: `UpdateUser` passes the decoded map
straight to the model update, so a patch containing a `password` key persists
the raw plaintext — here "newsecret" — in the password field of the stored
record (and echoes it in the response), which is not the hash of
"newsecret". -/
theorem update_password_stores_plaintext :
    (Application.UpdateUser [sampleUser] 1 [("password", JVal.jstr "newsecret")]).1
      = [{ sampleUser with password := "newsecret" }]
    ∧ (Application.UpdateUser [sampleUser] 1 [("password", JVal.jstr "newsecret")]).2.body
      = some { sampleUser with password := "newsecret" }
    ∧ "newsecret" ≠ bcryptGenerateFromPassword "newsecret" :=
  ⟨rfl, rfl, by decide⟩

/-- Claim C5 is violated by the code: when the credentials' email matches no
stored user, `Authenticate` hits the bare `return` after the failed lookup
and writes nothing to the response — no UserNotFound error is surfaced — and
`noResponse` is not an error response of any status or message. -/
theorem authenticate_unknown_email_silently_dropped :
    Application.Authenticate [sampleUser] ⟨"x@y.com", "secret"⟩ = AuthResponse.noResponse
    ∧ ∀ (s : Nat) (m : String), AuthResponse.noResponse ≠ AuthResponse.err s m :=
  ⟨rfl, fun _ _ h => AuthResponse.noConfusion h⟩

/-- Claim C6 is violated by the code: updating the consistent invoice
{original 1000, remaining 1000, status "Unpaid"} with
{"remaining_balance": 0} persists remaining balance 0 with status still
"Unpaid", not the "Paid" the invariant demands — no code path recomputes the
status. -/
theorem invoice_status_not_recomputed :
    (Invoice.Update [sampleInvoice] 1 [("remaining_balance", JVal.jnum 0)]).2
      = Except.ok { sampleInvoice with remainingBalance := 0 }
    ∧ ({ sampleInvoice with remainingBalance := 0 }).status = "Unpaid"
    ∧ ("Unpaid" : String) ≠ "Paid" :=
  ⟨rfl, rfl, by decide⟩

/-- Claim C7 is violated by the code: updating the active appointment
{service 1, user 2} with {"active": false} yields active = false with
service and user unchanged, but the cancellation timestamp stays null — the
generic patch-update sets only the mapped keys, so the two fields are not set
together. -/
theorem appointment_cancel_timestamp_not_set :
    (Appointment.Update [sampleAppointment] 1 [("active", JVal.jbool false)]).2
      = Except.ok { sampleAppointment with active := false }
    ∧ ({ sampleAppointment with active := false }).cancelDateTime = none
    ∧ ({ sampleAppointment with active := false }).serviceID = 1
    ∧ ({ sampleAppointment with active := false }).userID = 2 :=
  ⟨rfl, rfl, rfl, rfl⟩

/-- Claim C8 counterexample: deleting the concrete stored user 1 succeeds,
yet the same `Get` used for direct id lookup then returns NotFound — the
soft-deleted record is not retrievable by `get(id)`, contrary to the claim. -/
theorem soft_deleted_user_not_retrievable_by_get :
    (User.Delete [sampleUser] 5 1).2 = Except.ok sampleUser
    ∧ User.Get (User.Delete [sampleUser] 5 1).1 1 = Except.error DBError.recordNotFound :=
  ⟨rfl, rfl⟩

/-- Claim C8 as amended: after `delete(id)` succeeds the record is
soft-deleted — its deletion marker is set and it is retained in the store
(GORM's unscoped lookup still sees it), and it is excluded from default
listings — but the default-scope id lookup `get(id)` also excludes it,
returning NotFound. -/
theorem soft_delete_marks_and_hides (db : UserDB) (now uid : Nat) (u : User)
    (hget : User.Get db uid = Except.ok u) :
    (User.Delete db now uid).2 = Except.ok u
    ∧ { u with deletedAt := some now } ∈ (User.Delete db now uid).1
    ∧ (∀ v ∈ User.GetAll (User.Delete db now uid).1, v.id ≠ uid)
    ∧ User.Get (User.Delete db now uid).1 uid = Except.error DBError.recordNotFound := by
  have hfind : db.find? (fun x => x.id == uid && x.deletedAt == none) = some u := by
    revert hget
    unfold User.Get dbFirstUser
    cases db.find? (fun x => x.id == uid && x.deletedAt == none) <;> simp
  have hpu := List.find?_some hfind
  have hmem : u ∈ db := List.mem_of_find?_eq_some hfind
  have hdel1 : (User.Delete db now uid).1
      = db.map (fun x => if x.id == uid && x.deletedAt == none
                         then { x with deletedAt := some now } else x) := by
    simp [User.Delete, User.Get, dbFirstUser, hfind]
  have key : ∀ v ∈ (User.Delete db now uid).1,
      ¬(v.id == uid && v.deletedAt == none) = true := by
    rw [hdel1]
    intro v hvmem
    obtain ⟨x, hx, rfl⟩ := List.mem_map.mp hvmem
    by_cases hc : (x.id == uid && x.deletedAt == none) = true <;> simp [hc]
  refine ⟨?_, ?_, ?_, ?_⟩
  · simp [User.Delete, User.Get, dbFirstUser, hfind]
  · rw [hdel1]
    have heq : (fun x => if x.id == uid && x.deletedAt == none
                     then { x with deletedAt := some now } else x) u
        = { u with deletedAt := some now } := by simp [hpu]
    rw [← heq]
    exact List.mem_map_of_mem _ hmem
  · intro v hvmem
    have hvmem' : v ∈ (User.Delete db now uid).1.filter (fun x => x.deletedAt == none) := hvmem
    have hv2 : v ∈ (User.Delete db now uid).1 := List.mem_of_mem_filter hvmem'
    have hlive := List.of_mem_filter hvmem'
    have hk := key v hv2
    intro hid
    simp [hid, hlive] at hk
  · have hnone : dbFirstUser (User.Delete db now uid).1 uid = none := by
      apply List.find?_eq_none.mpr
      intro v hvmem
      simpa using key v hvmem
    simp [User.Get, hnone]

/-- Claim C8 (amended) witness: deleting the concrete stored user marks it,
retains it in the store, and hides it from both the default listing and the
default-scope id lookup. -/
theorem soft_delete_marks_and_hides_witness :
    { sampleUser with deletedAt := some 5 } ∈ (User.Delete [sampleUser] 5 1).1
    ∧ (∀ v ∈ User.GetAll (User.Delete [sampleUser] 5 1).1, v.id ≠ 1) := by
  have h := soft_delete_marks_and_hides [sampleUser] 5 1 sampleUser rfl
  exact ⟨h.2.1, h.2.2.1⟩

/-- Claim C9 is violated by the code: looking up a user id absent from the
store via GET makes the handler write the 404 response and then call
`log.Panicf`, so the operation panics rather than staying a plain
request-scoped error. -/
theorem getuser_missing_id_panics :
    Application.GetUser ([] : UserDB) 1
      = GetUserOutcome.panicked 404 "User ID (1) does not exist in the database."
    ∧ (Application.GetUser ([] : UserDB) 1).isPanic = true :=
  ⟨rfl, rfl⟩

/-- Claim C10: every successful registration responds 201 with the full
created User record, whose password field holds the hash of the submitted
plaintext, and the serialized response object includes that hash under the
"password" key — the hash is echoed back to the client. -/
theorem created_user_response_echoes_password_hash (db : UserDB) (payload : User)
    (hfresh : ∀ u ∈ db, u.email ≠ payload.email) :
    ((Application.CreateUser db payload).2).status = 201
    ∧ (Application.CreateUser db payload).2.body
        = some { payload with
            id := freshUserID db,
            deletedAt := none,
            password := bcryptGenerateFromPassword payload.password }
    ∧ ("password", JVal.jstr (bcryptGenerateFromPassword payload.password))
        ∈ userToJson { payload with
            id := freshUserID db,
            deletedAt := none,
            password := bcryptGenerateFromPassword payload.password } := by
  have hany : db.any (fun x => x.email == payload.email) = false := by
    rw [List.any_eq_false]
    intro x hx
    simp [hfresh x hx]
  refine ⟨?_, ?_, ?_⟩
  · simp [Application.CreateUser, User.Create, User.HashPassword, hany]
  · simp [Application.CreateUser, User.Create, User.HashPassword, hany]
  · simp [userToJson]

/-- Claim C10 witness: registering the concrete payload against the empty
store responds 201 and the response object carries the password hash. -/
theorem created_user_response_echoes_password_hash_witness :
    ((Application.CreateUser [] samplePayload).2).status = 201
    ∧ ("password", JVal.jstr (bcryptGenerateFromPassword "secret"))
        ∈ userToJson { samplePayload with
            id := 1,
            deletedAt := none,
            password := bcryptGenerateFromPassword "secret" } := by
  have h := created_user_response_echoes_password_hash [] samplePayload (by decide)
  exact ⟨h.1, h.2.2⟩

end BizZen
